import Mathlib

/-!
Shallow embedding of the bookstack reading-tracker core: the metrics
calculator (analyticsService), the goal tracker (goalService), the book /
session store operations that feed them (bookService), and the durable
achievement engine (achievementService).  Pure functions of the source are
translated to Lean functions; the mutable service state (goal list, user
achievement list, book/session store) is passed and returned explicitly.
JS numbers appearing in integer positions are modelled as Int, fractional
quantities (hours, progress percentages, speeds) as Rat.
-/

namespace BookStack

attribute [local semireducible] Rat.mul Rat.add Rat.inv Rat.sub

/-- Milliseconds in one calendar day, as used by the source's date maths. -/
def msPerDay : Int := 86400000

/-- Model of a JS Date: the epoch-millisecond instant plus the calendar
month/year fields that getMonth and getFullYear would return.  Civil-calendar
conversion from ms to month/year is outside the embedding, so those two
components are carried explicitly; nothing in the verified code relates them. -/
structure DateVal where
  ms : Int
  month : Int
  year : Int
deriving DecidableEq, Repr

/-- Local-midnight truncation (setHours(0,0,0,0)) and day difference are
modelled by the whole-day index of an instant. -/
def dayOf (t : Int) : Int := Int.fdiv t msPerDay

inductive BookStatus where
  | notStarted
  | reading
  | completed
  | paused
deriving DecidableEq, Repr

/-- Quote record; only its presence is ever counted by the engine, so the
display fields (text, note, page, createdAt) are reduced to the id. -/
structure Quote where
  id : String
deriving DecidableEq, Repr

/-- Book record with the fields the engine reads.  Display-only fields
(title, author, isbn, notes, shelves) are omitted. -/
structure Book where
  id : String
  totalPages : Int
  currentPage : Int
  status : BookStatus
  genre : Option String := none
  rating : Option Rat := none
  startDate : Option DateVal := none
  finishDate : Option DateVal := none
  quotes : List Quote := []
deriving DecidableEq, Repr

structure ReadingSession where
  id : String
  bookId : String
  date : DateVal
  pagesRead : Int
  duration : Int
deriving DecidableEq, Repr

/-- JS Set insertion: keep the first occurrence of each element, in
encounter order. -/
def addUnique {α} [DecidableEq α] (acc : List α) (x : α) : List α :=
  if x ∈ acc then acc else acc ++ [x]

/-- Array.from(new Set(l)): first occurrences in encounter order. -/
def uniqueList {α} [DecidableEq α] (l : List α) : List α :=
  l.foldl addUnique []

/-- getUniqueReadingDays: distinct midnight-truncated session days. -/
def getUniqueReadingDays (sessions : List ReadingSession) : List Int :=
  uniqueList (sessions.map (fun s => dayOf s.date.ms))

/-- The unique reading days sorted ascending, as calculateReadingStreaks
sorts them before its walk. -/
def sortedUniqueDays (sessions : List ReadingSession) : List Int :=
  List.insertionSort (· ≤ ·) (getUniqueReadingDays sessions)

/-- One step of the streak walk over consecutive sorted days: state is
(previous day, running current streak, longest streak seen).  A gap of
exactly one day extends the running streak (and bumps the longest), a gap
of more than one day resets the running streak to 1, and any other
difference leaves both counters alone, exactly as the source's loop
branches do. -/
def walkStep (s : Int × Nat × Nat) (d : Int) : Int × Nat × Nat :=
  (d,
   if d - s.1 = 1 then s.2.1 + 1 else if 1 < d - s.1 then 1 else s.2.1,
   if d - s.1 = 1 then
     (if s.2.2 < s.2.1 + 1 then s.2.1 + 1 else s.2.2)
   else s.2.2)

/-- calculateReadingStreaks (analyticsService): walk the sorted unique days
keeping a running and a longest streak, then dispatch the current streak on
the whole-day gap between today and the last reading day (one-day grace). -/
def calculateReadingStreaks (sessions : List ReadingSession) (now : DateVal) :
    Nat × Nat :=
  if sessions.isEmpty then (0, 0) else
  match sortedUniqueDays sessions with
  | [] => (0, 0)
  | d :: rest =>
    let w := rest.foldl walkStep (d, 1, 1)
    let gap := dayOf now.ms - (d :: rest).getLastD 0
    (if gap = 0 then w.2.1 else if gap = 1 then w.2.1 else 0, w.2.2)

/-- Specification-side streak: length of the maximal run of consecutive
days at the top of a descending day list (each next entry one day before
the previous). -/
def descStreak : List Int → Nat
  | [] => 0
  | [_] => 1
  | a :: b :: r => if b = a - 1 then descStreak (b :: r) + 1 else 1

/-- Specification-side running streak ending at the last day of an
ascending day list. -/
def suffixStreak (l : List Int) : Nat := descStreak l.reverse

/-- Occurrence-count table for genres in JS object-key insertion order;
books whose genre is missing or the empty string (falsy) are skipped. -/
def bumpGenre (entries : List (String × Nat)) (g : String) : List (String × Nat) :=
  if entries.any (fun e => e.1 = g) then
    entries.map (fun e => if e.1 = g then (e.1, e.2 + 1) else e)
  else entries ++ [(g, 1)]

def genreEntries (books : List Book) : List (String × Nat) :=
  books.foldl
    (fun es b =>
      match b.genre with
      | some g => if g = "" then es else bumpGenre es g
      | none => es)
    []

/-- The reduce callback of calculateFavoriteGenre: keep the entry with the
strictly larger count, the later entry on ties. -/
def pickFavorite (a b : String × Nat) : String × Nat :=
  if b.2 < a.2 then a else b

/-- calculateFavoriteGenre as in the unguarded version of analyticsService:
Object.entries(genreCount).reduce with no initial value, which raises a
TypeError when the entry list is empty. -/
def calculateFavoriteGenreV1 (books : List Book) : Except String (Option String) :=
  match genreEntries books with
  | [] => Except.error "TypeError: Reduce of empty array with no initial value"
  | e :: rest => Except.ok (some (rest.foldl pickFavorite e).1)

/-- calculateFavoriteGenre as in the guarded version of analyticsService:
an explicit empty check returns undefined before the reduce. -/
def calculateFavoriteGenreV2 (books : List Book) : Option String :=
  match genreEntries books with
  | [] => none
  | e :: rest => some (rest.foldl pickFavorite e).1

/-- calculateTotalPagesRead: sum of pagesRead over all sessions. -/
def totalPagesRead (sessions : List ReadingSession) : Int :=
  sessions.foldl (fun t s => t + s.pagesRead) 0

def completedBooksCount (books : List Book) : Nat :=
  (books.filter (fun b => b.status == BookStatus.completed)).length

/-- calculateBooksThisMonth: books whose finishDate falls in the current
calendar month and year. -/
def booksThisMonth (books : List Book) (now : DateVal) : Nat :=
  (books.filter (fun b =>
    match b.finishDate with
    | none => false
    | some d => d.month == now.month && d.year == now.year)).length

/-- getPagesReadThisMonth (goalService): pages from sessions dated in the
current calendar month and year. -/
def pagesReadThisMonth (sessions : List ReadingSession) (now : DateVal) : Int :=
  totalPagesRead (sessions.filter (fun s =>
    s.date.month == now.month && s.date.year == now.year))

inductive GoalType where
  | books
  | pages
deriving DecidableEq, Repr

inductive GoalPeriod where
  | month
  | year
deriving DecidableEq, Repr

inductive GoalStatus where
  | completed
  | onTrack
  | behind
  | notStarted
deriving DecidableEq, Repr

structure ReadingGoal where
  id : String
  type : GoalType
  target : Int
  period : GoalPeriod
  startDate : DateVal
  endDate : DateVal
  currentProgress : Int
  isActive : Bool
deriving DecidableEq, Repr

/-- isDateInPeriod: date >= startDate && date <= endDate (JS Date
comparison is by epoch ms). -/
def isDateInPeriod (date startD endD : DateVal) : Bool :=
  startD.ms ≤ date.ms && date.ms ≤ endD.ms

/-- The raw progress updateGoalProgress computes for an active, in-period
goal, by goal type and period. -/
def goalRawProgress (books : List Book) (sessions : List ReadingSession)
    (now : DateVal) (g : ReadingGoal) : Int :=
  match g.type, g.period with
  | GoalType.books, GoalPeriod.month => booksThisMonth books now
  | GoalType.books, GoalPeriod.year => completedBooksCount books
  | GoalType.pages, GoalPeriod.month => pagesReadThisMonth sessions now
  | GoalType.pages, GoalPeriod.year => totalPagesRead sessions

/-- Body of the updateGoalProgress loop for one goal: skip inactive goals
and goals outside [startDate, endDate]; otherwise clamp the raw progress to
the target and store it. -/
def updateOneGoal (books : List Book) (sessions : List ReadingSession)
    (now : DateVal) (g : ReadingGoal) : ReadingGoal :=
  if g.isActive && isDateInPeriod now g.startDate g.endDate then
    { g with currentProgress := min (goalRawProgress books sessions now g) g.target }
  else g

/-- updateGoalProgress (goalService): refresh every goal in place. -/
def updateGoalProgress (books : List Book) (sessions : List ReadingSession)
    (now : DateVal) (goals : List ReadingGoal) : List ReadingGoal :=
  goals.map (updateOneGoal books sessions now)

def isGoalCompleted (g : ReadingGoal) : Bool :=
  g.target ≤ g.currentProgress

/-- getDaysRemaining: Math.ceil of the ms distance to endDate in days. -/
def getDaysRemaining (g : ReadingGoal) (now : DateVal) : Int :=
  ⌈((g.endDate.ms - now.ms : Int) : Rat) / (msPerDay : Rat)⌉

def totalDaysOf (g : ReadingGoal) : Int :=
  ⌈((g.endDate.ms - g.startDate.ms : Int) : Rat) / (msPerDay : Rat)⌉

def daysElapsedOf (g : ReadingGoal) (now : DateVal) : Int :=
  totalDaysOf g - getDaysRemaining g now

/-- The expectedProgress value of getGoalStatus, as a rational when the
JS computation is finite (totalDays nonzero) and none when the JS division
daysElapsed/totalDays is not finite. -/
def expectedProgressOpt (g : ReadingGoal) (now : DateVal) : Option Rat :=
  if totalDaysOf g = 0 then none
  else some ((daysElapsedOf g now : Rat) / (totalDaysOf g : Rat) * (g.target : Rat))

/-- getGoalStatus.  The source computes expectedProgress and currentProgress
divided by it with JS number semantics; the branches below reproduce the
comparison results exactly, including the non-finite cases: with
daysElapsed > 0 and totalDays = 0 the JS ratio is a signed zero or NaN and
the comparison with 0.8 fails (behind); with expectedProgress a signed zero
the ratio is an infinity or NaN whose comparison with 0.8 succeeds exactly
when currentProgress and totalDays have the same strict sign. -/
def getGoalStatus (g : ReadingGoal) (now : DateVal) : GoalStatus :=
  if isGoalCompleted g then GoalStatus.completed
  else
    let td := totalDaysOf g
    let de := daysElapsedOf g now
    if de ≤ 0 then GoalStatus.notStarted
    else if td = 0 then GoalStatus.behind
    else
      let expected : Rat := (de : Rat) / (td : Rat) * (g.target : Rat)
      if expected = 0 then
        if 0 < g.currentProgress ∧ 0 < td ∨ g.currentProgress < 0 ∧ td < 0 then
          GoalStatus.onTrack
        else GoalStatus.behind
      else if (4 : Rat) / 5 ≤ (g.currentProgress : Rat) / expected then GoalStatus.onTrack
      else GoalStatus.behind

/-- Replace the first element satisfying p by its image under f, as a JS
find-then-mutate does on an array. -/
def replaceFirst {α} (p : α → Bool) (f : α → α) : List α → List α
  | [] => []
  | x :: xs => if p x then f x :: xs else x :: replaceFirst p f xs

/-- applySessionToBook: the book-progress update inside addReadingSession.
currentPage is clamped to totalPages, and the book is auto-completed
(with finishDate stamped) exactly when the clamped page reaches totalPages
while the status was reading. -/
def applySessionToBook (b : Book) (pagesRead : Int) (now : DateVal) : Book :=
  if b.totalPages ≤ min (b.currentPage + pagesRead) b.totalPages ∧
      b.status = BookStatus.reading then
    { b with currentPage := min (b.currentPage + pagesRead) b.totalPages,
             status := BookStatus.completed, finishDate := some now }
  else { b with currentPage := min (b.currentPage + pagesRead) b.totalPages }

/-- The mutable store of bookService: books plus the append-only session
log. -/
structure LibState where
  books : List Book
  sessions : List ReadingSession
deriving DecidableEq, Repr

/-- addReadingSession (bookService): append the new session and update the
first book whose id matches the session's bookId (Array.find then in-place
mutation). -/
def addReadingSession (st : LibState) (newId bookId : String)
    (date : DateVal) (pagesRead duration : Int) (now : DateVal) : LibState :=
  { books := replaceFirst (fun b => b.id == bookId)
      (fun b => applySessionToBook b pagesRead now) st.books
  , sessions := st.sessions ++ [⟨newId, bookId, date, pagesRead, duration⟩] }

inductive AchievementType where
  | booksRead
  | pagesRead
  | readingStreak
  | genreDiversity
  | speedReader
  | deepThinker
  | quoteCollector
  | readingTime
  | goalAchiever
  | consistentReader
deriving DecidableEq, Repr

/-- Static catalog entry; display-only fields (name, description, icon,
rarity, category) are omitted, they never feed checkAchievements. -/
structure Achievement where
  id : String
  type : AchievementType
  requirement : Rat
deriving DecidableEq, Repr

/-- The static 36-entry catalog from initializeAchievements. -/
def achievementCatalog : List Achievement :=
  [⟨"books-1", AchievementType.booksRead, 1⟩,
   ⟨"books-5", AchievementType.booksRead, 5⟩,
   ⟨"books-10", AchievementType.booksRead, 10⟩,
   ⟨"books-25", AchievementType.booksRead, 25⟩,
   ⟨"books-50", AchievementType.booksRead, 50⟩,
   ⟨"books-100", AchievementType.booksRead, 100⟩,
   ⟨"books-250", AchievementType.booksRead, 250⟩,
   ⟨"pages-1000", AchievementType.pagesRead, 1000⟩,
   ⟨"pages-5000", AchievementType.pagesRead, 5000⟩,
   ⟨"pages-10000", AchievementType.pagesRead, 10000⟩,
   ⟨"pages-25000", AchievementType.pagesRead, 25000⟩,
   ⟨"pages-50000", AchievementType.pagesRead, 50000⟩,
   ⟨"streak-3", AchievementType.readingStreak, 3⟩,
   ⟨"streak-7", AchievementType.readingStreak, 7⟩,
   ⟨"streak-14", AchievementType.readingStreak, 14⟩,
   ⟨"streak-30", AchievementType.readingStreak, 30⟩,
   ⟨"streak-100", AchievementType.readingStreak, 100⟩,
   ⟨"genres-3", AchievementType.genreDiversity, 3⟩,
   ⟨"genres-5", AchievementType.genreDiversity, 5⟩,
   ⟨"genres-10", AchievementType.genreDiversity, 10⟩,
   ⟨"genres-15", AchievementType.genreDiversity, 15⟩,
   ⟨"speed-50", AchievementType.speedReader, 50⟩,
   ⟨"speed-75", AchievementType.speedReader, 75⟩,
   ⟨"speed-100", AchievementType.speedReader, 100⟩,
   ⟨"quotes-10", AchievementType.quoteCollector, 10⟩,
   ⟨"quotes-25", AchievementType.quoteCollector, 25⟩,
   ⟨"quotes-50", AchievementType.quoteCollector, 50⟩,
   ⟨"quotes-100", AchievementType.quoteCollector, 100⟩,
   ⟨"time-10", AchievementType.readingTime, 10⟩,
   ⟨"time-50", AchievementType.readingTime, 50⟩,
   ⟨"time-100", AchievementType.readingTime, 100⟩,
   ⟨"time-500", AchievementType.readingTime, 500⟩,
   ⟨"goals-1", AchievementType.goalAchiever, 1⟩,
   ⟨"goals-5", AchievementType.goalAchiever, 5⟩,
   ⟨"goals-10", AchievementType.goalAchiever, 10⟩,
   ⟨"consistent-30", AchievementType.consistentReader, 30⟩,
   ⟨"consistent-90", AchievementType.consistentReader, 90⟩,
   ⟨"consistent-365", AchievementType.consistentReader, 365⟩]

/-- Durable per-entry achievement state.  earnedAt holds the epoch ms of
the stored Date; records created not yet earned carry new Date(0), i.e. 0. -/
structure UserAchievement where
  achievementId : String
  earnedAt : Int
  progress : Rat
  isEarned : Bool
deriving DecidableEq, Repr

/-- Truthiness of the stored earnedAt value.  In the source it is a Date
object (or its JSON string after a storage round trip), and objects and
nonempty strings are truthy whatever instant they hold, so the test
`!existingUserAchievement.earnedAt` is false for every stored record. -/
def dateIsTruthy (_t : Int) : Bool := true

def achCompletedBooks (books : List Book) : List Book :=
  books.filter (fun b => b.status == BookStatus.completed)

/-- calculateTotalReadingTime (achievementService): minutes summed then
converted to hours. -/
def achTotalReadingTime (sessions : List ReadingSession) : Rat :=
  ((sessions.foldl (fun t s => t + s.duration) 0 : Int) : Rat) / 60

/-- getUniqueGenres: genres that are set and nonblank after trim, first
occurrences kept. -/
def getUniqueGenres (books : List Book) : List String :=
  uniqueList ((books.filterMap (fun b => b.genre)).filter (fun g => g.trim != ""))

def getAllQuotes (books : List Book) : List Quote :=
  books.foldl (fun acc b => acc ++ b.quotes) []

/-- calculateAverageReadingSpeed: pages per hour over all sessions, 0 when
there are no sessions or no time logged. -/
def calculateAverageReadingSpeed (sessions : List ReadingSession) : Rat :=
  if sessions.isEmpty then 0
  else
    let totalPages : Int := sessions.foldl (fun t s => t + s.pagesRead) 0
    let totalHours : Rat := ((sessions.foldl (fun t s => t + s.duration) 0 : Int) : Rat) / 60
    if 0 < totalHours then (totalPages : Rat) / totalHours else 0

def sessionDayList (sessions : List ReadingSession) : List Int :=
  sessions.map (fun s => dayOf s.date.ms)

/-- The day-by-day backwards walk shared by calculateReadingStreak and
calculateConsistentReadingDays: starting today, count consecutive days with
a session, checking at most 365 days back. -/
def countBack (days : List Int) : Nat → Int → Nat
  | 0, _ => 0
  | fuel + 1, d => if days.contains d then countBack days fuel (d - 1) + 1 else 0

/-- calculateReadingStreak (achievementService). -/
def achReadingStreak (sessions : List ReadingSession) (now : DateVal) : Nat :=
  if sessions.isEmpty then 0
  else countBack (sessionDayList sessions) 365 (dayOf now.ms)

/-- calculateConsistentReadingDays; its body is a verbatim copy of
calculateReadingStreak in the source. -/
def calculateConsistentReadingDays (sessions : List ReadingSession) (now : DateVal) : Nat :=
  if sessions.isEmpty then 0
  else countBack (sessionDayList sessions) 365 (dayOf now.ms)

/-- The progress formula of checkAchievements:
Math.min(metric / requirement * 100, 100). -/
def achievementProgress (metric requirement : Rat) : Rat :=
  min (metric / requirement * 100) 100

/-- The switch of checkAchievements: the progress and isEarned computed for
one catalog entry from the current books and sessions.  The switch has no
case for goalAchiever or deepThinker, so those fall through with the
initial values progress = 0, isEarned = false. -/
def progressAndEarned (books : List Book) (sessions : List ReadingSession)
    (now : DateVal) (a : Achievement) : Rat × Bool :=
  match a.type with
  | AchievementType.booksRead =>
      let m : Rat := ((achCompletedBooks books).length : Rat)
      (achievementProgress m a.requirement, decide (a.requirement ≤ m))
  | AchievementType.pagesRead =>
      let m : Rat := ((totalPagesRead sessions : Int) : Rat)
      (achievementProgress m a.requirement, decide (a.requirement ≤ m))
  | AchievementType.readingStreak =>
      let m : Rat := (achReadingStreak sessions now : Rat)
      (achievementProgress m a.requirement, decide (a.requirement ≤ m))
  | AchievementType.genreDiversity =>
      let m : Rat := ((getUniqueGenres (achCompletedBooks books)).length : Rat)
      (achievementProgress m a.requirement, decide (a.requirement ≤ m))
  | AchievementType.speedReader =>
      let m : Rat := calculateAverageReadingSpeed sessions
      (achievementProgress m a.requirement, decide (a.requirement ≤ m))
  | AchievementType.quoteCollector =>
      let m : Rat := ((getAllQuotes books).length : Rat)
      (achievementProgress m a.requirement, decide (a.requirement ≤ m))
  | AchievementType.readingTime =>
      let m : Rat := achTotalReadingTime sessions
      (achievementProgress m a.requirement, decide (a.requirement ≤ m))
  | AchievementType.consistentReader =>
      let m : Rat := (calculateConsistentReadingDays sessions now : Rat)
      (achievementProgress m a.requirement, decide (a.requirement ≤ m))
  | AchievementType.goalAchiever => (0, false)
  | AchievementType.deepThinker => (0, false)

/-- One iteration of the checkAchievements loop: thread the user-achievement
state and the newlyEarned accumulator through one catalog entry. -/
def checkStep (books : List Book) (sessions : List ReadingSession)
    (now : DateVal) (acc : List UserAchievement × List UserAchievement)
    (a : Achievement) : List UserAchievement × List UserAchievement :=
  match acc.1.find? (fun r => r.achievementId == a.id) with
  | some r =>
    if r.isEarned then acc
    else
      let pe := progressAndEarned books sessions now a
      let stamped := pe.2 && !dateIsTruthy r.earnedAt
      let r' :=
        if stamped then
          { r with progress := pe.1, isEarned := pe.2, earnedAt := now.ms }
        else
          { r with progress := pe.1, isEarned := pe.2 }
      (replaceFirst (fun x => x.achievementId == a.id) (fun _ => r') acc.1,
       if stamped then acc.2 ++ [r'] else acc.2)
  | none =>
    let pe := progressAndEarned books sessions now a
    let r : UserAchievement := ⟨a.id, if pe.2 then now.ms else 0, pe.1, pe.2⟩
    (acc.1 ++ [r], if pe.2 then acc.2 ++ [r] else acc.2)

/-- checkAchievements: fold the loop body over the static catalog, starting
from the stored user achievements and an empty newlyEarned list; returns
the updated state and the newlyEarned records. -/
def checkAchievements (books : List Book) (sessions : List ReadingSession)
    (now : DateVal) (state : List UserAchievement) :
    List UserAchievement × List UserAchievement :=
  achievementCatalog.foldl (checkStep books sessions now) (state, [])

/-! Concrete inputs used by the evaluation theorems and witnesses. -/

/-- A finished 100-page book with no genre and no quotes. -/
def demoBook : Book :=
  { id := "b1", totalPages := 100, currentPage := 100,
    status := BookStatus.completed }

/-- A clock instant distinct from the epoch. -/
def demoNow : DateVal := ⟨999999, 0, 2025⟩

/-- A stored state holding the record checkAchievements itself creates for
a not-yet-earned entry: earnedAt is new Date(0). -/
def demoState : List UserAchievement := [⟨"books-1", 0, 0, false⟩]

/-- C1: the claim says that when a previously tracked, unearned achievement
crosses its requirement, checkAchievements stamps earnedAt with the current
time and reports the record in newlyEarned.  The code does neither: with a
prior books-1 record (isEarned = false, earnedAt = Date(0)) and one
completed book, the call flips isEarned to true but leaves earnedAt at the
epoch placeholder and returns an empty newlyEarned list, because the
truthiness test on the stored Date can never pass. -/
theorem checkAchievements_flip_not_stamped :
    (checkAchievements [demoBook] [] demoNow demoState).2 = [] ∧
    ((checkAchievements [demoBook] [] demoNow demoState).1.find?
        (fun r => r.achievementId == "books-1")) =
      some ⟨"books-1", 0, 100, true⟩ ∧
    demoNow.ms ≠ 0 := by decide

/-- A small library for the favourite-genre evaluations: two fantasy books
and one science-fiction book. -/
def demoGenreBooks : List Book :=
  [{ id := "g1", totalPages := 10, currentPage := 0,
     status := BookStatus.reading, genre := some "Fantasy" },
   { id := "g2", totalPages := 10, currentPage := 0,
     status := BookStatus.reading, genre := some "SciFi" },
   { id := "g3", totalPages := 10, currentPage := 0,
     status := BookStatus.reading, genre := some "Fantasy" }]

/-- C8: the claim says computing favoriteGenre never throws and yields
undefined when no book has a genre.  The unguarded version of the source
raises a TypeError on that input (reduce of an empty entry list with no
initial value), both for an empty library and for a library whose only book
has no genre; the later guarded version returns undefined there, and on a
populated library both agree on the genre with the highest count. -/
theorem calculateFavoriteGenre_empty_behaviour :
    calculateFavoriteGenreV1 [] =
      Except.error "TypeError: Reduce of empty array with no initial value" ∧
    calculateFavoriteGenreV1 [demoBook] =
      Except.error "TypeError: Reduce of empty array with no initial value" ∧
    calculateFavoriteGenreV2 [] = none ∧
    calculateFavoriteGenreV2 [demoBook] = none ∧
    calculateFavoriteGenreV1 demoGenreBooks = Except.ok (some "Fantasy") ∧
    calculateFavoriteGenreV2 demoGenreBooks = some "Fantasy" :=
  ⟨rfl, rfl, rfl, rfl, rfl, rfl⟩

/-- C9: the progress formula min(metric / requirement × 100, 100) recorded
by checkAchievements for a not-yet-earned entry is non-decreasing in the
underlying metric, for a fixed positive requirement. -/
theorem achievementProgress_monotone (r m₁ m₂ : Rat) (hr : 0 < r)
    (hm : m₁ ≤ m₂) :
    achievementProgress m₁ r ≤ achievementProgress m₂ r := by
  unfold achievementProgress
  have h1 : m₁ / r ≤ m₂ / r := by gcongr
  have h2 : m₁ / r * 100 ≤ m₂ / r * 100 := by
    have : (0:Rat) ≤ 100 := by norm_num
    exact mul_le_mul_of_nonneg_right h1 this
  exact min_le_min h2 le_rfl

/-- Witness for C9 at metric values 3 ≤ 7 and requirement 10. -/
theorem achievementProgress_monotone_witness :
    (0:Rat) < 10 ∧ (3:Rat) ≤ 7 ∧
      achievementProgress 3 10 ≤ achievementProgress 7 10 :=
  ⟨by norm_num, by norm_num,
   achievementProgress_monotone 10 3 7 (by norm_num) (by norm_num)⟩

/-- C6: every active goal whose window contains now gets its stored
progress replaced by the raw computed progress clamped to the target. -/
theorem updateGoalProgress_active_clamped (books : List Book)
    (sessions : List ReadingSession) (now : DateVal) (goals : List ReadingGoal)
    (i : Nat) (g : ReadingGoal) (hg : goals[i]? = some g)
    (ha : g.isActive = true)
    (hp : isDateInPeriod now g.startDate g.endDate = true) :
    (updateGoalProgress books sessions now goals)[i]? =
      some { g with currentProgress := min (goalRawProgress books sessions now g) g.target } := by
  unfold updateGoalProgress
  rw [List.getElem?_map, hg]
  simp [updateOneGoal, ha, hp]

/-- A library of 15 finished books. -/
def demoBooks15 : List Book := List.replicate 15 demoBook

/-- A clock instant inside the demo goal window. -/
def demoGoalNow : DateVal := ⟨500, 5, 2025⟩

/-- An active yearly books goal with target 10 and stale progress 3. -/
def demoGoal : ReadingGoal :=
  ⟨"goal1", GoalType.books, 10, GoalPeriod.year, ⟨0, 0, 2025⟩,
   ⟨1000, 0, 2025⟩, 3, true⟩

/-- Witness for C6: target 10 with 15 qualifying completed books persists
currentProgress = 10. -/
theorem updateGoalProgress_active_clamped_witness :
    (updateGoalProgress demoBooks15 [] demoGoalNow [demoGoal])[0]? =
      some { demoGoal with currentProgress := 10 } :=
  (updateGoalProgress_active_clamped demoBooks15 [] demoGoalNow [demoGoal] 0
    demoGoal rfl rfl (by decide)).trans (by decide)

/-- C7: a goal that is inactive, or whose window does not contain now, is
returned unchanged in every field by updateGoalProgress. -/
theorem updateGoalProgress_untouched (books : List Book)
    (sessions : List ReadingSession) (now : DateVal) (goals : List ReadingGoal)
    (i : Nat) (g : ReadingGoal) (hg : goals[i]? = some g)
    (h : g.isActive = false ∨ isDateInPeriod now g.startDate g.endDate = false) :
    (updateGoalProgress books sessions now goals)[i]? = some g := by
  unfold updateGoalProgress
  rw [List.getElem?_map, hg]
  rcases h with h | h <;> simp [updateOneGoal, h]

/-- The demo goal made inactive, with stale progress 7. -/
def demoGoalInactive : ReadingGoal :=
  { demoGoal with isActive := false, currentProgress := 7 }

/-- Witness for C7: an inactive goal keeps its stale progress. -/
theorem updateGoalProgress_untouched_witness :
    (updateGoalProgress [] [] demoGoalNow [demoGoalInactive])[0]? =
      some demoGoalInactive :=
  updateGoalProgress_untouched [] [] demoGoalNow [demoGoalInactive] 0
    demoGoalInactive rfl (Or.inl rfl)

/-- C5: for a well-formed goal (positive target, as the data model fixes)
that is not already completed, a computed expectedProgress of 0 makes
getGoalStatus return the not-started sentinel rather than dividing by
zero. -/
theorem getGoalStatus_zero_expected (g : ReadingGoal) (now : DateVal)
    (htarget : 0 < g.target) (hincomp : g.currentProgress < g.target)
    (hexp : expectedProgressOpt g now = some 0) :
    getGoalStatus g now = GoalStatus.notStarted := by
  have htd : totalDaysOf g ≠ 0 := by
    intro h; simp [expectedProgressOpt, h] at hexp
  have hval : (daysElapsedOf g now : Rat) / (totalDaysOf g : Rat) * (g.target : Rat) = 0 := by
    simpa [expectedProgressOpt, htd] using hexp
  have hde : daysElapsedOf g now = 0 := by
    rcases mul_eq_zero.1 hval with h | h
    · rcases div_eq_zero_iff.1 h with h2 | h2
      · exact_mod_cast h2
      · exact absurd (by exact_mod_cast h2) htd
    · have h3 : g.target = 0 := by exact_mod_cast h
      omega
  have hcomp : isGoalCompleted g = false := by
    simp [isGoalCompleted]; omega
  simp [getGoalStatus, hcomp, hde]

/-- An active pages goal over a ten-day window that has not started yet:
now sits at the window start, so daysElapsed and expectedProgress are 0. -/
def demoGoalPending : ReadingGoal :=
  ⟨"goal2", GoalType.pages, 10, GoalPeriod.month, ⟨0, 0, 2025⟩,
   ⟨864000000, 0, 2025⟩, 3, true⟩

def demoGoalPendingNow : DateVal := ⟨0, 0, 2025⟩

/-- Witness for C5 at a concrete goal whose expectedProgress is 0. -/
theorem getGoalStatus_zero_expected_witness :
    0 < demoGoalPending.target ∧
    demoGoalPending.currentProgress < demoGoalPending.target ∧
    expectedProgressOpt demoGoalPending demoGoalPendingNow = some 0 ∧
    getGoalStatus demoGoalPending demoGoalPendingNow = GoalStatus.notStarted :=
  ⟨by decide, by decide, by decide,
   getGoalStatus_zero_expected _ _ (by decide) (by decide) (by decide)⟩

theorem find?_replaceFirst_self {a : Type} (p : a → Bool) (f : a → a)
    (l : List a) (b : a) (hb : l.find? p = some b) (hf : p (f b) = true) :
    (replaceFirst p f l).find? p = some (f b) := by
  induction l with
  | nil => simp at hb
  | cons x xs ih =>
    by_cases hx : p x
    · rw [List.find?_cons_of_pos _ hx] at hb
      cases hb
      simp [replaceFirst, hx, List.find?_cons_of_pos _ hf]
    · rw [List.find?_cons_of_neg _ hx] at hb
      simp only [replaceFirst, if_neg hx]
      rw [List.find?_cons_of_neg _ hx]
      exact ih hb

theorem applySessionToBook_id (b : Book) (pagesRead : Int) (now : DateVal) :
    (applySessionToBook b pagesRead now).id = b.id := by
  unfold applySessionToBook
  split <;> rfl

/-- C10: logging a session against an existing book clamps the new
currentPage to min(previous + pagesRead, totalPages), never past
totalPages, and auto-completes the book (stamping finishDate = now) exactly
when the page count reaches totalPages while the status was reading; a
book in any other status keeps its status and finishDate. -/
theorem addReadingSession_book_update (st : LibState) (newId bookId : String)
    (date : DateVal) (pagesRead duration : Int) (now : DateVal) (b : Book)
    (hfind : st.books.find? (fun bk => bk.id == bookId) = some b) :
    (addReadingSession st newId bookId date pagesRead duration now).books.find?
        (fun bk => bk.id == bookId) = some (applySessionToBook b pagesRead now) ∧
    (applySessionToBook b pagesRead now).currentPage =
        min (b.currentPage + pagesRead) b.totalPages ∧
    (applySessionToBook b pagesRead now).currentPage ≤ b.totalPages ∧
    (b.status = BookStatus.reading → b.totalPages ≤ b.currentPage + pagesRead →
      (applySessionToBook b pagesRead now).status = BookStatus.completed ∧
      (applySessionToBook b pagesRead now).finishDate = some now) ∧
    (b.status ≠ BookStatus.reading →
      (applySessionToBook b pagesRead now).status = b.status ∧
      (applySessionToBook b pagesRead now).finishDate = b.finishDate) ∧
    (b.currentPage + pagesRead < b.totalPages →
      (applySessionToBook b pagesRead now).status = b.status ∧
      (applySessionToBook b pagesRead now).finishDate = b.finishDate) := by
  have hpb := List.find?_some hfind
  refine ⟨?_, ?_, ?_, ?_, ?_, ?_⟩
  · apply find?_replaceFirst_self _ _ _ _ hfind
    show ((applySessionToBook b pagesRead now).id == bookId) = true
    rw [applySessionToBook_id]
    exact hpb
  · unfold applySessionToBook
    split <;> rfl
  · unfold applySessionToBook
    split <;> exact min_le_right _ _
  · intro hs hle
    unfold applySessionToBook
    rw [if_pos ⟨le_min hle le_rfl, hs⟩]
    exact ⟨rfl, rfl⟩
  · intro hs
    unfold applySessionToBook
    rw [if_neg (fun hc => hs hc.2)]
    exact ⟨rfl, rfl⟩
  · intro hlt
    unfold applySessionToBook
    rw [if_neg]
    · exact ⟨rfl, rfl⟩
    · intro hc
      have h1 := hc.1
      have h2 : min (b.currentPage + pagesRead) b.totalPages ≤ b.currentPage + pagesRead :=
        min_le_left _ _
      omega

/-- A book five pages from the end, currently being read. -/
def demoReadingBook : Book :=
  { id := "r1", totalPages := 100, currentPage := 95,
    status := BookStatus.reading }

/-- A one-book store with an empty session log. -/
def demoLib : LibState := ⟨[demoReadingBook], []⟩

def demoSessionDate : DateVal := ⟨86400000, 0, 2025⟩

/-- Witness for C10: a 10-page session on a 95/100 reading book clamps the
page to 100 and completes the book. -/
theorem addReadingSession_book_update_witness :
    ((addReadingSession demoLib "s1" "r1" demoSessionDate 10 30 demoNow).books.find?
        (fun bk => bk.id == "r1")) =
      some (applySessionToBook demoReadingBook 10 demoNow) ∧
    (applySessionToBook demoReadingBook 10 demoNow).currentPage = 100 ∧
    (applySessionToBook demoReadingBook 10 demoNow).status = BookStatus.completed :=
  ⟨(addReadingSession_book_update demoLib "s1" "r1" demoSessionDate 10 30
      demoNow demoReadingBook rfl).1, by decide, by decide⟩

theorem walkStep_snd_fst (s : Int × Nat × Nat) (d : Int) :
    (walkStep s d).2.1 =
      if d - s.1 = 1 then s.2.1 + 1 else if 1 < d - s.1 then 1 else s.2.1 := rfl

theorem foldl_walkStep_fst (xs : List Int) : ∀ (d : Int) (c l : Nat),
    (List.foldl walkStep (d, c, l) xs).1 = (d :: xs).getLastD 0 := by
  induction xs with
  | nil => intro d c l; rfl
  | cons e es ih =>
    intro d c l
    rw [List.foldl_cons]
    have h := ih e (walkStep (d, c, l) e).2.1 (walkStep (d, c, l) e).2.2
    simpa using h

theorem foldl_walkStep_current (xs : List Int) : ∀ (d : Int),
    List.Chain' (fun a b => a < b) (d :: xs) →
    (List.foldl walkStep (d, 1, 1) xs).2.1 = descStreak (d :: xs).reverse := by
  induction xs using List.reverseRecOn with
  | nil => intro d _; rfl
  | append_singleton ys e ih =>
    intro d hch
    have hch2 : List.Chain' (fun a b => a < b) ((d :: ys) ++ [e]) := by simpa using hch
    have hsplit := List.chain'_append.1 hch2
    obtain ⟨p, hp⟩ : ∃ p, (d :: ys).getLast? = some p := by
      cases hq : (d :: ys).getLast? with
      | none => exact absurd (List.getLast?_eq_none_iff.1 hq) (by simp)
      | some q => exact ⟨q, rfl⟩
    have hpe : p < e := hsplit.2.2 p hp e rfl
    have hfst : (List.foldl walkStep (d, 1, 1) ys).1 = p := by
      rw [foldl_walkStep_fst, List.getLastD_eq_getLast?, hp]; rfl
    have hcur : (List.foldl walkStep (d, 1, 1) ys).2.1 = descStreak (d :: ys).reverse :=
      ih d hsplit.1
    obtain ⟨t, ht⟩ : ∃ t, (d :: ys).reverse = p :: t := by
      cases hrev : (d :: ys).reverse with
      | nil => exact absurd (List.reverse_eq_nil_iff.1 hrev) (by simp)
      | cons p0 t =>
        have hh : (d :: ys).reverse.head? = some p0 := by rw [hrev]; rfl
        rw [List.head?_reverse, hp] at hh
        cases hh
        exact ⟨t, rfl⟩
    have hrw : (d :: (ys ++ [e])).reverse = e :: p :: t := by
      rw [show d :: (ys ++ [e]) = (d :: ys) ++ [e] from rfl, List.reverse_append, ht]
      rfl
    rw [show d :: (ys ++ [e]) = (d :: ys) ++ [e] from rfl] at hrw ⊢
    rw [show (d :: ys) ++ [e] = d :: (ys ++ [e]) from rfl] at hrw ⊢
    rw [List.foldl_append, List.foldl_cons, List.foldl_nil, hrw, walkStep_snd_fst,
      hfst, hcur, ht]
    show _ = if p = e - 1 then descStreak (p :: t) + 1 else 1
    by_cases h1 : e - p = 1
    · rw [if_pos h1, if_pos (by omega)]
    · have h2 : 1 < e - p := by omega
      rw [if_neg h1, if_pos h2, if_neg (by omega)]


theorem mem_foldl_addUnique {a : Type} [DecidableEq a] (l : List a) :
    ∀ (acc : List a) (x : a), x ∈ l.foldl addUnique acc ↔ x ∈ acc ∨ x ∈ l := by
  induction l with
  | nil => intro acc x; simp
  | cons y ys ih =>
    intro acc x
    rw [List.foldl_cons, ih]
    unfold addUnique
    by_cases hy : y ∈ acc
    · rw [if_pos hy]
      constructor
      · rintro (h | h)
        · exact Or.inl h
        · exact Or.inr (List.mem_cons_of_mem _ h)
      · rintro (h | h)
        · exact Or.inl h
        · rcases List.mem_cons.1 h with h | h
          · exact Or.inl (h ▸ hy)
          · exact Or.inr h
    · rw [if_neg hy]
      simp [List.mem_append, List.mem_cons]
      tauto
  
theorem nodup_foldl_addUnique {a : Type} [DecidableEq a] (l : List a) :
    ∀ acc : List a, acc.Nodup → (l.foldl addUnique acc).Nodup := by
  induction l with
  | nil => intro acc h; exact h
  | cons y ys ih =>
    intro acc h
    rw [List.foldl_cons]
    apply ih
    unfold addUnique
    by_cases hy : y ∈ acc
    · rw [if_pos hy]; exact h
    · rw [if_neg hy]
      refine h.append (List.nodup_singleton y) ?_
      intro z hz hzy
      rcases List.mem_singleton.1 hzy with rfl
      exact hy hz

theorem nodup_uniqueList {a : Type} [DecidableEq a] (l : List a) :
    (uniqueList l).Nodup :=
  nodup_foldl_addUnique l [] List.nodup_nil

theorem chain'_lt_sortedUniqueDays (sessions : List ReadingSession) :
    List.Chain' (fun x y => x < y) (sortedUniqueDays sessions) := by
  unfold sortedUniqueDays
  have hsorted : List.Sorted (· ≤ ·) (List.insertionSort (· ≤ ·) (getUniqueReadingDays sessions)) :=
    List.sorted_insertionSort _ _
  have hnodup : (List.insertionSort (· ≤ ·) (getUniqueReadingDays sessions)).Nodup :=
    (List.perm_insertionSort (· ≤ ·) (getUniqueReadingDays sessions)).symm.nodup
      (nodup_uniqueList _)
  have hpairwise : List.Pairwise (fun x y : Int => x < y)
      (List.insertionSort (· ≤ ·) (getUniqueReadingDays sessions)) := by
    have h1 : List.Pairwise (fun x y : Int => x ≤ y) _ := hsorted
    have h2 : List.Pairwise (fun x y : Int => x ≠ y) _ := hnodup
    exact (h1.and h2).imp (fun h => lt_of_le_of_ne h.1 h.2)
  exact hpairwise.chain'


def demoStreakSessions : List ReadingSession :=
  [⟨"s1", "b1", ⟨19998 * 86400000 + 3600000, 0, 2025⟩, 5, 30⟩,
   ⟨"s2", "b1", ⟨19999 * 86400000, 0, 2025⟩, 5, 30⟩]

def demoStreakNow : DateVal := ⟨20000 * 86400000, 0, 2025⟩

/-- C4: for a non-empty session list, with gap the whole days from the
last distinct reading day to today, a gap of 0 or 1 reports the running
consecutive-day streak ending at the last reading day (the grace rule),
and a gap above 1 reports 0; in particular two sessions on days D-2 and
D-1 evaluated on day D give currentStreak = 2 and longestStreak = 2. -/
theorem calculateReadingStreaks_gap_rule (sessions : List ReadingSession)
    (now : DateVal) (hs : sessions ≠ []) :
    ((dayOf now.ms - (sortedUniqueDays sessions).getLastD 0 = 0 ∨
      dayOf now.ms - (sortedUniqueDays sessions).getLastD 0 = 1) →
      (calculateReadingStreaks sessions now).1 = suffixStreak (sortedUniqueDays sessions)) ∧
    (1 < dayOf now.ms - (sortedUniqueDays sessions).getLastD 0 →
      (calculateReadingStreaks sessions now).1 = 0) ∧
    calculateReadingStreaks demoStreakSessions demoStreakNow = (2, 2) := by
  have hne : sessions.isEmpty = false := by
    cases sessions with
    | nil => exact absurd rfl hs
    | cons a l => rfl
  have hch := chain'_lt_sortedUniqueDays sessions
  refine ⟨?_, ?_, by decide⟩
  · intro hgap
    unfold calculateReadingStreaks
    rw [hne]
    cases hu : sortedUniqueDays sessions with
    | nil => simp [suffixStreak, descStreak]
    | cons d rest =>
      rw [hu] at hgap hch
      have hcur := foldl_walkStep_current rest d hch
      dsimp only
      rcases hgap with h0 | h1
      · rw [h0]
        simpa [suffixStreak] using hcur
      · rw [h1]
        simpa [suffixStreak] using hcur
  · intro hgap
    unfold calculateReadingStreaks
    rw [hne]
    cases hu : sortedUniqueDays sessions with
    | nil => simp
    | cons d rest =>
      rw [hu] at hgap
      dsimp only
      have hA : ¬(dayOf now.ms - (d :: rest).getLastD 0 = 0) := by omega
      have hB : ¬(dayOf now.ms - (d :: rest).getLastD 0 = 1) := by omega
      rw [if_neg hA, if_neg hB]
      simp

theorem calculateReadingStreaks_gap_rule_witness :
    demoStreakSessions ≠ [] ∧
    calculateReadingStreaks demoStreakSessions demoStreakNow = (2, 2) :=
  ⟨by decide,
   (calculateReadingStreaks_gap_rule demoStreakSessions demoStreakNow (by decide)).2.2⟩

theorem replaceFirst_eq_self {a : Type} (p : a → Bool) (f : a → a)
    (l : List a) (b : a) (hb : l.find? p = some b) (hf : f b = b) :
    replaceFirst p f l = l := by
  induction l with
  | nil => rfl
  | cons x xs ih =>
    by_cases hx : p x
    · rw [List.find?_cons_of_pos _ hx] at hb
      cases hb
      simp [replaceFirst, hx, hf]
    · rw [List.find?_cons_of_neg _ hx] at hb
      simp [replaceFirst, hx, ih hb]

theorem find?_replaceFirst_other {a : Type} (p q : a → Bool) (f : a → a)
    (l : List a) (h : ∀ x, p x = true → q x = false ∧ q (f x) = false) :
    (replaceFirst p f l).find? q = l.find? q := by
  induction l with
  | nil => rfl
  | cons x xs ih =>
    by_cases hx : p x
    · simp only [replaceFirst, if_pos hx]
      rw [List.find?_cons_of_neg _ (by simp [(h x hx).2]),
        List.find?_cons_of_neg _ (by simp [(h x hx).1])]
    · simp only [replaceFirst, if_neg hx]
      by_cases hq : q x
      · rw [List.find?_cons_of_pos _ hq, List.find?_cons_of_pos _ hq]
      · rw [List.find?_cons_of_neg _ hq, List.find?_cons_of_neg _ hq]
        exact ih

theorem getElem?_replaceFirst {a : Type} (p : a → Bool) (f : a → a)
    (l : List a) (i : Nat) (r : a) (hi : l[i]? = some r) :
    (replaceFirst p f l)[i]? = some r ∨
      ((replaceFirst p f l)[i]? = some (f r) ∧ l.find? p = some r) := by
  induction l generalizing i with
  | nil => simp at hi
  | cons x xs ih =>
    by_cases hx : p x
    · simp only [replaceFirst, if_pos hx]
      cases i with
      | zero =>
        simp only [List.getElem?_cons_zero, Option.some.injEq] at hi
        right
        subst hi
        exact ⟨by simp, List.find?_cons_of_pos _ hx⟩
      | succ j =>
        left
        simpa using hi
    · simp only [replaceFirst, if_neg hx]
      cases i with
      | zero =>
        left
        simpa using hi
      | succ j =>
        have hi2 : xs[j]? = some r := by simpa using hi
        rcases ih j hi2 with h | ⟨h1, h2⟩
        · left
          simpa using h
        · right
          refine ⟨by simpa using h1, ?_⟩
          rw [List.find?_cons_of_neg _ hx]
          exact h2

theorem checkStep_settled (books : List Book) (sessions : List ReadingSession)
    (now : DateVal) (s n : List UserAchievement) (a : Achievement)
    (r : UserAchievement)
    (hf : s.find? (fun x => x.achievementId == a.id) = some r)
    (hcase : r.isEarned = true ∨
      ((progressAndEarned books sessions now a).2 = false ∧
       r.progress = (progressAndEarned books sessions now a).1 ∧
       r.isEarned = false)) :
    checkStep books sessions now (s, n) a = (s, n) := by
  unfold checkStep
  dsimp only
  rw [hf]
  dsimp only
  rcases hcase with hE | ⟨hpe, hpr, hne⟩
  · rw [hE]
    simp
  · rw [hne]
    simp only [Bool.false_eq_true, if_false, dateIsTruthy, Bool.not_true,
      Bool.and_false]
    have hfun : (fun _x : UserAchievement =>
        UserAchievement.mk r.achievementId r.earnedAt
          (progressAndEarned books sessions now a).1
          (progressAndEarned books sessions now a).2) r = r := by
      rcases r with ⟨rid, rea, rpr, rie⟩
      dsimp only at hpr hne ⊢
      rw [hpr, hne, hpe]
    rw [replaceFirst_eq_self _ _ _ _ hf hfun]


/-- Settled state for one catalog entry: a record exists and is either
earned, or carries exactly the progress and (false) earned flag that the
current books/sessions would recompute. -/
def entrySettled (books : List Book) (sessions : List ReadingSession)
    (now : DateVal) (s : List UserAchievement) (a : Achievement) : Prop :=
  ∃ r, s.find? (fun x => x.achievementId == a.id) = some r ∧
    (r.isEarned = true ∨
      ((progressAndEarned books sessions now a).2 = false ∧
       r.progress = (progressAndEarned books sessions now a).1 ∧
       r.isEarned = false))

theorem checkStep_establishes (books : List Book)
    (sessions : List ReadingSession) (now : DateVal)
    (s n : List UserAchievement) (a : Achievement) :
    entrySettled books sessions now (checkStep books sessions now (s, n) a).1 a := by
  unfold checkStep
  dsimp only
  cases hf : s.find? (fun x => x.achievementId == a.id) with
  | some r =>
    dsimp only
    by_cases hE : r.isEarned = true
    · rw [if_pos hE]
      exact ⟨r, hf, Or.inl hE⟩
    · rw [if_neg hE]
      dsimp only
      simp only [dateIsTruthy, Bool.not_true, Bool.and_false, Bool.false_eq_true,
        if_false]
      have hkey : ((fun x => x.achievementId == a.id)
          (UserAchievement.mk r.achievementId r.earnedAt
            (progressAndEarned books sessions now a).1
            (progressAndEarned books sessions now a).2)) = true := by
        have h0 := List.find?_some hf
        exact h0
      refine ⟨_, find?_replaceFirst_self _ _ _ _ hf hkey, ?_⟩
      by_cases hpe : (progressAndEarned books sessions now a).2 = true
      · exact Or.inl hpe
      · exact Or.inr ⟨by simpa using hpe, rfl, by simpa using hpe⟩
  | none =>
    dsimp only
    have hone : (s ++ [UserAchievement.mk a.id
        (if (progressAndEarned books sessions now a).2 = true then now.ms else 0)
        (progressAndEarned books sessions now a).1
        (progressAndEarned books sessions now a).2]).find?
          (fun x => x.achievementId == a.id) =
        some (UserAchievement.mk a.id
          (if (progressAndEarned books sessions now a).2 = true then now.ms else 0)
          (progressAndEarned books sessions now a).1
          (progressAndEarned books sessions now a).2) := by
      rw [List.find?_append, hf]
      simp
    refine ⟨_, hone, ?_⟩
    by_cases hpe : (progressAndEarned books sessions now a).2 = true
    · exact Or.inl hpe
    · exact Or.inr ⟨by simpa using hpe, rfl, by simpa using hpe⟩

theorem checkStep_preserves_other (books : List Book)
    (sessions : List ReadingSession) (now : DateVal)
    (s n : List UserAchievement) (a b : Achievement) (hne : b.id ≠ a.id) :
    (checkStep books sessions now (s, n) a).1.find?
        (fun x => x.achievementId == b.id) =
      s.find? (fun x => x.achievementId == b.id) := by
  unfold checkStep
  dsimp only
  cases hf : s.find? (fun x => x.achievementId == a.id) with
  | some r =>
    dsimp only
    by_cases hE : r.isEarned = true
    · rw [if_pos hE]
    · rw [if_neg hE]
      dsimp only
      apply find?_replaceFirst_other
      intro x hx
      have hxa : x.achievementId = a.id := beq_iff_eq.1 hx
      constructor
      · dsimp only
        rw [hxa]
        exact beq_eq_false_iff_ne.2 (fun h => hne h.symm)
      · have h0 := List.find?_some hf
        have hra : r.achievementId = a.id := beq_iff_eq.1 h0
        by_cases hst : ((progressAndEarned books sessions now a).2 &&
            !dateIsTruthy r.earnedAt) = true
        · rw [if_pos hst]
          dsimp only
          rw [hra]
          exact beq_eq_false_iff_ne.2 (fun h => hne h.symm)
        · rw [if_neg hst]
          dsimp only
          rw [hra]
          exact beq_eq_false_iff_ne.2 (fun h => hne h.symm)
  | none =>
    dsimp only
    rw [List.find?_append]
    have hkey : ((fun x : UserAchievement => x.achievementId == b.id)
        (UserAchievement.mk a.id
          (if (progressAndEarned books sessions now a).2 = true then now.ms else 0)
          (progressAndEarned books sessions now a).1
          (progressAndEarned books sessions now a).2)) = false :=
      beq_eq_false_iff_ne.2 (fun h => hne h.symm)
    rw [List.find?_cons_of_neg _ (by simp [hkey])]
    simp


theorem foldl_checkStep_settled (books : List Book)
    (sessions : List ReadingSession) (now : DateVal)
    (entries : List Achievement) :
    ∀ (s n : List UserAchievement),
    (∀ a ∈ entries, entrySettled books sessions now s a) →
    List.foldl (checkStep books sessions now) (s, n) entries = (s, n) := by
  induction entries with
  | nil => intro s n _; rfl
  | cons e rest ih =>
    intro s n hall
    rw [List.foldl_cons]
    obtain ⟨r, hf, hcase⟩ := hall e (List.mem_cons_self e rest)
    rw [checkStep_settled books sessions now s n e r hf hcase]
    exact ih s n (fun a ha => hall a (List.mem_cons_of_mem _ ha))

theorem foldl_checkStep_preserves (books : List Book)
    (sessions : List ReadingSession) (now : DateVal)
    (entries : List Achievement) (a : Achievement) :
    ∀ (acc : List UserAchievement × List UserAchievement),
    (∀ b ∈ entries, b.id ≠ a.id) →
    (List.foldl (checkStep books sessions now) acc entries).1.find?
        (fun x => x.achievementId == a.id) =
      acc.1.find? (fun x => x.achievementId == a.id) := by
  induction entries with
  | nil => intro acc _; rfl
  | cons e rest ih =>
    intro acc hall
    rw [List.foldl_cons]
    rw [ih _ (fun b hb => hall b (List.mem_cons_of_mem _ hb))]
    obtain ⟨s, n⟩ := acc
    exact checkStep_preserves_other books sessions now s n e a
      (Ne.symm (hall e (List.mem_cons_self e rest)))

theorem foldl_checkStep_establishes (books : List Book)
    (sessions : List ReadingSession) (now : DateVal)
    (entries : List Achievement) :
    ∀ (acc : List UserAchievement × List UserAchievement),
    entries.Pairwise (fun x y => x.id ≠ y.id) →
    ∀ a ∈ entries,
      entrySettled books sessions now
        (List.foldl (checkStep books sessions now) acc entries).1 a := by
  induction entries with
  | nil =>
    intro acc _ a ha
    cases ha
  | cons e rest ih =>
    intro acc hpair a ha
    obtain ⟨hhead, htail⟩ := List.pairwise_cons.1 hpair
    rw [List.foldl_cons]
    rcases List.mem_cons.1 ha with rfl | ha2
    · obtain ⟨s, n⟩ := acc
      obtain ⟨r, hfr, hcase⟩ := checkStep_establishes books sessions now s n a
      refine ⟨r, ?_, hcase⟩
      rw [foldl_checkStep_preserves books sessions now rest a _
        (fun b hb => Ne.symm (hhead b hb))]
      exact hfr
    · exact ih _ htail a ha2

theorem catalog_pairwise :
    achievementCatalog.Pairwise (fun x y => x.id ≠ y.id) := by decide

/-- C2: calling checkAchievements a second time with the same books,
sessions and clock, starting from the state the first call produced,
returns that state unchanged together with an empty newlyEarned list. -/
theorem checkAchievements_idempotent (books : List Book)
    (sessions : List ReadingSession) (now : DateVal)
    (state : List UserAchievement) :
    checkAchievements books sessions now
        (checkAchievements books sessions now state).1 =
      ((checkAchievements books sessions now state).1, []) := by
  unfold checkAchievements
  apply foldl_checkStep_settled
  intro a ha
  exact foldl_checkStep_establishes books sessions now achievementCatalog
    (state, []) catalog_pairwise a ha


theorem checkStep_earned_frozen (books : List Book)
    (sessions : List ReadingSession) (now : DateVal)
    (s n : List UserAchievement) (a : Achievement) (i : Nat)
    (r : UserAchievement) (hr : r.isEarned = true)
    (h1 : s[i]? = some r) (h2 : r ∉ n) :
    (checkStep books sessions now (s, n) a).1[i]? = some r ∧
    r ∉ (checkStep books sessions now (s, n) a).2 := by
  unfold checkStep
  dsimp only
  cases hf : s.find? (fun x => x.achievementId == a.id) with
  | some r0 =>
    dsimp only
    by_cases hE : r0.isEarned = true
    · rw [if_pos hE]
      exact ⟨h1, h2⟩
    · rw [if_neg hE]
      dsimp only
      simp only [dateIsTruthy, Bool.not_true, Bool.and_false, Bool.false_eq_true,
        if_false]
      constructor
      · rcases getElem?_replaceFirst (fun x => x.achievementId == a.id)
          (fun _x => UserAchievement.mk r0.achievementId r0.earnedAt
            (progressAndEarned books sessions now a).1
            (progressAndEarned books sessions now a).2) s i r h1 with h | ⟨hg, hfs⟩
        · exact h
        · rw [hf] at hfs
          injection hfs with hrr
          subst hrr
          exact absurd hr hE
      · exact h2
  | none =>
    dsimp only
    have hlt : i < s.length := by
      by_contra hcon
      push_neg at hcon
      rw [List.getElem?_eq_none hcon] at h1
      cases h1
    constructor
    · rw [List.getElem?_append]
      rw [if_pos hlt]
      exact h1
    · have hmem : r ∈ s := List.getElem?_mem h1
      have hkey : ¬((r.achievementId == a.id) = true) := List.find?_eq_none.1 hf r hmem
      by_cases hpe : (progressAndEarned books sessions now a).2 = true
      · rw [if_pos hpe]
        intro hmem2
        rcases List.mem_append.1 hmem2 with h | h
        · exact h2 h
        · rcases List.mem_singleton.1 h with rfl
          simp at hkey
      · rw [if_neg hpe]
        exact h2

theorem foldl_checkStep_earned_frozen (books : List Book)
    (sessions : List ReadingSession) (now : DateVal)
    (entries : List Achievement) :
    ∀ (acc : List UserAchievement × List UserAchievement) (i : Nat)
      (r : UserAchievement), r.isEarned = true → acc.1[i]? = some r →
      r ∉ acc.2 →
      (List.foldl (checkStep books sessions now) acc entries).1[i]? = some r ∧
      r ∉ (List.foldl (checkStep books sessions now) acc entries).2 := by
  induction entries with
  | nil => intro acc i r _ h1 h2; exact ⟨h1, h2⟩
  | cons e rest ih =>
    intro acc i r hr h1 h2
    rw [List.foldl_cons]
    obtain ⟨s, n⟩ := acc
    obtain ⟨h1a, h2a⟩ := checkStep_earned_frozen books sessions now s n e i r hr h1 h2
    exact ih _ i r hr h1a h2a

/-- C3: a stored record that is already earned is left untouched by any
later checkAchievements call, whatever the books and sessions: the record
(including earnedAt) is returned unchanged at its position and it never
appears in the newlyEarned list. -/
theorem checkAchievements_earned_frozen (books : List Book)
    (sessions : List ReadingSession) (now : DateVal)
    (state : List UserAchievement) (i : Nat) (r : UserAchievement)
    (hi : state[i]? = some r) (hr : r.isEarned = true) :
    (checkAchievements books sessions now state).1[i]? = some r ∧
    r ∉ (checkAchievements books sessions now state).2 := by
  unfold checkAchievements
  exact foldl_checkStep_earned_frozen books sessions now achievementCatalog
    (state, []) i r hr hi (by simp)

/-- An earned books-1 record with a fixed earnedAt instant. -/
def demoEarnedRec : UserAchievement := ⟨"books-1", 555, 100, true⟩

/-- Witness for C3 at a concrete earned record and a metric far past the
requirement. -/
theorem checkAchievements_earned_frozen_witness :
    (checkAchievements [demoBook] [] demoNow [demoEarnedRec]).1[0]? =
      some demoEarnedRec ∧
    demoEarnedRec ∉ (checkAchievements [demoBook] [] demoNow [demoEarnedRec]).2 :=
  checkAchievements_earned_frozen [demoBook] [] demoNow [demoEarnedRec] 0
    demoEarnedRec rfl rfl

end BookStack
